import Mathlib

/-!
Shallow embedding of the activity-classification and free-agent-search
subsystem of the `baseball_mcp` package (files `players.py`, `utils.py`,
`metadata.py`, `transactions.py`), together with theorems settling the
specification claims about it.

Python strings are modelled as Lean `String`; Python `a in b` (substring
containment) is modelled by an executable character-list scan; the two
rapidfuzz scorers (`fuzz.partial_ratio`, `fuzz.token_set_ratio`) are
external library calls and are modelled as abstract score functions passed
as parameters.
-/

namespace BaseballMcp

/-- Boolean test that the first character list is an initial segment of the
second; mirrors the inner step of Python substring search. -/
def startsWithChars : List Char → List Char → Bool
  | [], _ => true
  | _ :: _, [] => false
  | a :: as, b :: bs => a = b && startsWithChars as bs

/-- Boolean substring containment on character lists: `containsSub needle hay`
is Python `needle in hay` (in particular the empty needle is contained in
everything, as in Python). -/
def containsSub (needle : List Char) : List Char → Bool
  | [] => needle.isEmpty
  | c :: t => startsWithChars needle (c :: t) || containsSub needle t

/-- Python `needle in hay` on strings. -/
def strContains (needle hay : String) : Bool :=
  containsSub needle.data hay.data

/-- Python `s.lower()`: lower-case character by character. -/
def pyLower (s : String) : String :=
  ⟨s.data.map Char.toLower⟩

/-- Helper for `pySplit`: walk the characters, accumulating the current
(reversed) token and cutting at whitespace. -/
def pySplitChars : List Char → List Char → List String
  | [], acc => if acc.isEmpty then [] else [⟨acc.reverse⟩]
  | c :: t, acc =>
    if c.isWhitespace then
      (if acc.isEmpty then [] else [⟨acc.reverse⟩]) ++ pySplitChars t []
    else pySplitChars t (c :: acc)

/-- Python `s.split()`: split on whitespace runs, discarding empty pieces. -/
def pySplit (s : String) : List String :=
  pySplitChars s.data []

/-- Embedding of `fuzzy_match_name` (players.py, lines 12-51).  The two
rapidfuzz scorers are abstract parameters `pr` (partial ratio) and `tsr`
(token-set ratio); they receive exactly the lower-cased strings the source
passes to them.  Returns `(is_match, score)`. -/
def fuzzyMatchName (pr tsr : String → String → Nat)
    (searchTerm playerName : String) (threshold : Nat := 80) : Bool × Nat :=
  if searchTerm = "" || playerName = "" then (false, 0)
  else
    let searchLower := pyLower searchTerm
    if strContains searchLower (pyLower playerName) then (true, 100)
    else
      let score1 := pr searchLower (pyLower playerName)
      if score1 ≥ threshold then (true, score1)
      else
        let score2 := tsr searchLower (pyLower playerName)
        if score2 ≥ threshold then (true, score2)
        else
          let searchParts := pySplit searchLower
          let nameParts := pySplit (pyLower playerName)
          if searchParts.length > 1 && nameParts.length > 1 &&
              searchParts.head? = nameParts.head? then (true, 85)
          else (false, score2)

/-- Embedding of the generator loop of `get_paginated_free_agents`
(players.py, lines 53-87).  `pages offset` models
`league.free_agents(size=batch_size, offset=offset)`: `none` models the call
raising an exception (caught and turned into a silent `break`), `some batch`
a successful page.  `fuel` bounds the recursion; the top-level entry point
supplies enough fuel for the loop's own cap to be the binding constraint. -/
def faLoop {α : Type} (pages : Nat → Option (List α)) (batchSize maxPlayers : Nat) :
    Nat → Nat → Nat → List α
  | 0, _, _ => []
  | fuel + 1, offset, total =>
    if total < maxPlayers then
      match pages offset with
      | none => []
      | some batch =>
        if batch.isEmpty then []
        else
          let yielded := batch.take (maxPlayers - total)
          if yielded.length < batch.length then yielded
          else
            yielded ++
              (if batch.length < batchSize then []
               else faLoop pages batchSize maxPlayers fuel (offset + batchSize)
                      (total + yielded.length))
    else []

/-- The sequence of page offsets the loop actually requests (instrumentation
of `faLoop`: one entry per call to `league.free_agents`). -/
def faLoopRequests {α : Type} (pages : Nat → Option (List α)) (batchSize maxPlayers : Nat) :
    Nat → Nat → Nat → List Nat
  | 0, _, _ => []
  | fuel + 1, offset, total =>
    if total < maxPlayers then
      offset ::
        (match pages offset with
         | none => []
         | some batch =>
           if batch.isEmpty then []
           else
             let yielded := batch.take (maxPlayers - total)
             if yielded.length < batch.length then []
             else if batch.length < batchSize then []
             else faLoopRequests pages batchSize maxPlayers fuel (offset + batchSize)
                    (total + yielded.length))
    else []

/-- `get_paginated_free_agents(league, batch_size, max_players)`: the full
finite sequence of players the generator yields. -/
def getPaginatedFreeAgents {α : Type} (pages : Nat → Option (List α))
    (batchSize : Nat := 100) (maxPlayers : Nat := 1000) : List α :=
  faLoop pages batchSize maxPlayers (maxPlayers + 1) 0 0

/-- The page requests issued by `get_paginated_free_agents`. -/
def getPaginatedRequests {α : Type} (pages : Nat → Option (List α))
    (batchSize : Nat := 100) (maxPlayers : Nat := 1000) : List Nat :=
  faLoopRequests pages batchSize maxPlayers (maxPlayers + 1) 0 0

/-! ### Activity classifier (utils.py `activity_to_dict`, metadata.py
`ESPN_ACTION_TYPE_MAP`) -/

/-- Stand-in for a vendor Team object (the classifier only threads it through
`team_to_dict`; its contents are irrelevant to the claims, so it is a bare
identifier). -/
structure Team where
  teamId : Nat
deriving DecidableEq, Repr

/-- One element of `activity.actions`.  The source checks
`isinstance(action_tuple, tuple) and len(action_tuple) == 3`; anything else is
a malformed item that is logged and skipped. -/
inductive ActionItem where
  | tuple3 (team : Option Team) (actionType : String) (playerName : String)
  | malformed
deriving DecidableEq, Repr

/-- A vendor activity as the classifier consumes it: its (possibly empty)
list of action items.  An absent `actions` attribute behaves exactly like an
empty list in the source (`hasattr(...) and activity.actions`). -/
structure Activity where
  actions : List ActionItem
deriving DecidableEq, Repr

/-- The normalized activity dictionary built by `activity_to_dict`
(timestamp fields omitted: they are a direct `convert_timestamp` translation
involving wall-clock time and are not touched by any claim). -/
structure ActivityDict where
  type : String
  team : Option Team
  addedPlayer : Option String
  droppedPlayer : Option String
  playersIn : List String
  playersOut : List String
  source : Option String
deriving DecidableEq, Repr

/-- `ESPN_ACTION_TYPE_MAP` (metadata.py, lines 130-147), as an association
list in source order. -/
def ESPN_ACTION_TYPE_MAP : List (String × String) :=
  [("FA ADDED", "ADD"),
   ("WAIVER ADDED", "ADD"),
   ("DROPPED", "DROP"),
   ("TRADED", "TRADE_ACCEPTED"),
   ("WAIVER", "WAIVER_MOVED"),
   ("DRAFT", "DRAFT_PICK"),
   ("KEEPER", "KEEPER_SELECT"),
   ("MOVED TO IL", "INJURY_LIST"),
   ("MOVED FROM IL", "INJURY_LIST"),
   ("LINEUP SET", "LINEUP_SET"),
   ("SETTINGS CHANGED", "LEAGUE_EDIT"),
   ("TEAM SETTINGS", "TEAM_EDIT"),
   ("CLAIMED", "WAIVER_MOVED"),
   ("BID", "WAIVER_BUDGET_USED")]

/-- Python `ESPN_ACTION_TYPE_MAP.get(action_type)`. -/
def lookupActionType (s : String) : Option String :=
  (ESPN_ACTION_TYPE_MAP.find? (fun p => p.1 = s)).map Prod.snd

/-- The dictionary `activity_to_dict` initializes before scanning actions. -/
def initActivityDict : ActivityDict :=
  { type := "UNKNOWN_ACTIVITY", team := none, addedPlayer := none,
    droppedPlayer := none, playersIn := [], playersOut := [], source := none }

/-- utils.py lines 306-307: `if activity_dict["team"] is None and team_obj:`
set the record's team from the first tuple supplying one. -/
def applyTeam (d : ActivityDict) (teamObj : Option Team) : ActivityDict :=
  if d.team = none ∧ teamObj.isSome then { d with team := teamObj } else d

/-- utils.py lines 313-314: set the top-level kind from the first tuple whose
action maps successfully. -/
def applyKind (d : ActivityDict) (mappedType : String) : ActivityDict :=
  if d.type = "UNKNOWN_ACTIVITY" then { d with type := mappedType } else d

/-- utils.py lines 317-335: the player-field side effects of a mapped action
(first-occurrence add with source inference, first-occurrence drop, trade
append). -/
def applySideEffects (d : ActivityDict) (mappedType actionType playerName : String) :
    ActivityDict :=
  if mappedType = "ADD" then
    if d.addedPlayer = none then
      let d := { d with addedPlayer := some playerName }
      if strContains "FA" actionType then { d with source := some "FREE_AGENT" }
      else if strContains "WAIVER" actionType then { d with source := some "WAIVERS" }
      else d
    else d
  else if mappedType = "DROP" then
    if d.droppedPlayer = none then { d with droppedPlayer := some playerName } else d
  else if mappedType = "TRADE_ACCEPTED" then
    { d with playersIn := d.playersIn ++ [playerName] }
  else d

/-- The body of the `for i, action_tuple in enumerate(activity.actions)` loop
of `activity_to_dict` (utils.py, lines 298-345), as a fold step: malformed
items are skipped, the team is extracted, and a recognized action type sets
the kind and applies its side effects (an unrecognized one is only logged). -/
def processAction (d : ActivityDict) (a : ActionItem) : ActivityDict :=
  match a with
  | .malformed => d
  | .tuple3 teamObj actionType playerName =>
    let d := applyTeam d teamObj
    match lookupActionType actionType with
    | none => d
    | some mappedType =>
      applySideEffects (applyKind d mappedType) mappedType actionType playerName

/-- The kinds the fold itself can produce: the initial fallback plus the
range of `ESPN_ACTION_TYPE_MAP`. -/
def classifierKinds : List String :=
  "UNKNOWN_ACTIVITY" :: ESPN_ACTION_TYPE_MAP.map Prod.snd

/-- utils.py lines 347-350: the post-pass that reclassifies an activity with
both an added and a dropped player from ADD/DROP to ROSTER_MOVE. -/
def postPass (d : ActivityDict) : ActivityDict :=
  if d.addedPlayer.isSome ∧ d.droppedPlayer.isSome ∧ (d.type = "ADD" ∨ d.type = "DROP")
  then { d with type := "ROSTER_MOVE" } else d

/-- Embedding of `activity_to_dict` (utils.py, lines 275-353): fold the
action items in order, then apply the roster-move post-pass. -/
def activityToDict (a : Activity) : ActivityDict :=
  postPass (a.actions.foldl processAction initActivityDict)

/-- The closed ActivityKind set named by the specification. -/
def activityKindSet : List String :=
  ["ADD", "DROP", "ROSTER_MOVE", "TRADE_ACCEPTED", "TRADE_PENDING",
   "TRADE_DECLINED", "WAIVER_MOVED", "WAIVER_BUDGET_USED", "LINEUP_SET",
   "DRAFT_PICK", "KEEPER_SELECT", "LEAGUE_EDIT", "TEAM_EDIT", "UNKNOWN_ACTIVITY"]

/-! ### Player search engine (players.py `search_players`) -/

/-- The slice of a player record that the search engine reads and returns:
`player_to_dict` output restricted to `player_id` and `name` (the remaining
fields are verbatim metadata copies untouched by any claim). -/
structure SPlayer where
  playerId : Option Int
  name : String
deriving DecidableEq, Repr

/-- One element of `matching_players`: the player dictionary enriched with
`status` and `match_score`. -/
structure MatchEntry where
  playerId : Option Int
  name : String
  status : String
  score : Nat
deriving DecidableEq, Repr

/-- The league state `search_players` consults: the team rosters (in team
order) and the remote free-agent pool as a page oracle (see `faLoop`). -/
structure LeagueModel where
  teams : List (List SPlayer)
  faPages : Nat → Option (List SPlayer)

/-- The rostered scan (players.py, lines 414-428): every roster player whose
lower-cased name contains the lower-cased search term, score 100, status
ROSTERED. -/
def rosteredMatches (teams : List (List SPlayer)) (searchTerm : String) : List MatchEntry :=
  (teams.map (fun roster =>
    roster.filterMap (fun p =>
      if strContains (pyLower searchTerm) (pyLower p.name) then
        some { playerId := p.playerId, name := p.name, status := "ROSTERED", score := 100 }
      else none))).flatten

/-- The free-agent matches in generator order, before the 50-result break
(players.py, lines 433-446): each paginated free agent put through
`fuzzy_match_name` at threshold 80. -/
def faMatchesAll (pr tsr : String → String → Nat)
    (pages : Nat → Option (List SPlayer)) (searchTerm : String) : List MatchEntry :=
  (getPaginatedFreeAgents pages 200 1000).filterMap (fun p =>
    if (fuzzyMatchName pr tsr searchTerm p.name 80).1 then
      some { playerId := p.playerId, name := p.name, status := "FREE_AGENT",
             score := (fuzzyMatchName pr tsr searchTerm p.name 80).2 }
    else none)

/-- `matching_players` as accumulated by `search_players`: the rostered
matches, then — when free agents are included and fewer than 50 matches have
accumulated — free-agent matches until the total reaches 50. -/
def matchingPlayers (lg : LeagueModel) (pr tsr : String → String → Nat)
    (searchTerm : String) (includeRostered includeFreeAgents : Bool) : List MatchEntry :=
  let rostered := if includeRostered then rosteredMatches lg.teams searchTerm else []
  let fa :=
    if includeFreeAgents ∧ rostered.length < 50 then
      (faMatchesAll pr tsr lg.faPages searchTerm).take (50 - rostered.length)
    else []
  rostered ++ fa

/-- `player_map.get(pid)` on the insertion-ordered dictionary, modelled as an
association list. -/
def alLookup (pid : Int) : List (Int × MatchEntry) → Option MatchEntry
  | [] => none
  | (k, v) :: t => if k = pid then some v else alLookup pid t

/-- `player_map[pid] = player` when `pid` is already a key: Python dicts keep
the original insertion position on value update. -/
def alUpdate (pid : Int) (v : MatchEntry) : List (Int × MatchEntry) → List (Int × MatchEntry)
  | [] => []
  | (k, w) :: t => if k = pid then (k, v) :: t else (k, w) :: alUpdate pid v t

/-- One iteration of the deduplication loop of `search_players` (players.py,
lines 455-461): entries without a player id are skipped (`continue`);
otherwise the stored entry for the id is replaced only by a strictly greater
score. -/
def dedupStep (m : List (Int × MatchEntry)) (p : MatchEntry) : List (Int × MatchEntry) :=
  match p.playerId with
  | none => m
  | some pid =>
    match alLookup pid m with
    | none => m ++ [(pid, p)]
    | some cur => if p.score > cur.score then alUpdate pid p m else m

/-- The full deduplication loop of `search_players` (players.py, lines
453-461), starting from an empty dictionary. -/
def dedupFold (entries : List MatchEntry) : List (Int × MatchEntry) :=
  entries.foldl dedupStep []

/-- `unique_players = list(player_map.values())` (players.py, line 463). -/
def searchDedup (entries : List MatchEntry) : List MatchEntry :=
  (dedupFold entries).map Prod.snd

/-- The sort key comparison of players.py line 464:
`(-match_score, name.lower())` ascending, i.e. descending score then
ascending lower-cased name. -/
def entryLE (a b : MatchEntry) : Bool :=
  b.score < a.score || (a.score = b.score && pyLower a.name ≤ pyLower b.name)

/-- The pure core of `search_players` (players.py, lines 410-465): collect,
deduplicate, sort. -/
def searchPlayersCore (lg : LeagueModel) (pr tsr : String → String → Nat)
    (searchTerm : String) (includeRostered includeFreeAgents : Bool) : List MatchEntry :=
  (searchDedup (matchingPlayers lg pr tsr searchTerm includeRostered includeFreeAgents)).mergeSort
    entryLE

/-! ### Tool-call boundary (utils.py `handle_error`, the `try/except` shells
of players.py `search_players` and transactions.py `get_recent_activity`) -/

/-- `handle_error` (utils.py, lines 24-34). -/
def handleError (errorMsg context : String) : List (String × String) :=
  if strContains "401" errorMsg || strContains "Private" errorMsg then
    [("error", "This appears to be a private league. Please use the authenticate tool first with your ESPN_S2 and SWID cookies to access private leagues.")]
  else
    [("error", "Error in " ++ context ++ ": " ++ errorMsg)]

/-- An element of a tool-call result list: either a normal payload record or
a plain string-keyed error dictionary. -/
inductive ToolItem (α : Type) where
  | payload (a : α)
  | errDict (d : List (String × String))
deriving DecidableEq, Repr

/-- `search_players` including its boundary `try/except` (players.py, lines
401-468): a failure anywhere before the core (credential fetch, league
construction) is modelled by `leagueRes = .error msg` and is converted by
`handle_error` into a single-element error payload. -/
def searchPlayersTool (leagueRes : Except String LeagueModel)
    (pr tsr : String → String → Nat) (searchTerm : String)
    (includeRostered includeFreeAgents : Bool) : List (ToolItem MatchEntry) :=
  match leagueRes with
  | .error e => [.errDict (handleError e "search_players")]
  | .ok lg =>
    (searchPlayersCore lg pr tsr searchTerm includeRostered includeFreeAgents).map .payload

/-- `get_recent_activity` including its boundary `try/except`
(transactions.py, lines 27-134): classify each fetched activity, filter by
the optional activity type (a falsy — absent or empty — filter string
disables filtering), then apply offset and limit. -/
def getRecentActivityTool (leagueRes : Except String (List Activity))
    (limit offset : Nat) (activityType : Option String) : List (ToolItem ActivityDict) :=
  match leagueRes with
  | .error e => [.errDict (handleError e "get_recent_activity")]
  | .ok activities =>
    let processed :=
      (activities.map activityToDict).filter (fun d =>
        match activityType with
        | none => true
        | some t => if t = "" then true else decide (d.type = t))
    ((processed.drop offset).take limit).map .payload

/-! ### Auxiliary definitions used by the theorems -/

/-- An action item the classifier does not recognize: malformed, or its
action string is outside `ESPN_ACTION_TYPE_MAP`. -/
def unrecognizedAction : ActionItem → Bool
  | .malformed => true
  | .tuple3 _ ty _ => (lookupActionType ty).isNone

/-- One step of the per-key evolution of the dedup dictionary: a candidate
replaces the current best only with a strictly greater score (ties keep the
incumbent). -/
def kbStep (c : Option MatchEntry) (q : MatchEntry) : Option MatchEntry :=
  match c with
  | none => some q
  | some c' => if q.score > c'.score then some q else c

/-- The per-key evolution of the dedup dictionary over a candidate list. -/
def keepBest (cur : Option MatchEntry) (qs : List MatchEntry) : Option MatchEntry :=
  qs.foldl kbStep cur

/-- A constant-zero stand-in for the rapidfuzz scorers, used in concrete
counterexamples and witnesses. -/
def zeroScore : String → String → Nat := fun _ _ => 0

/-- Counterexample activity for C1: a TRADED action first, then an add and a
drop — both player fields end up set while the kind stays TRADE_ACCEPTED. -/
def actTradeAddDrop : Activity :=
  ⟨[.tuple3 none "TRADED" "A", .tuple3 none "FA ADDED" "B", .tuple3 none "DROPPED" "C"]⟩

/-- Witness activity for C1: a plain add-plus-drop roster move. -/
def actAddDrop : Activity :=
  ⟨[.tuple3 none "FA ADDED" "B", .tuple3 none "DROPPED" "C"]⟩

/-- Counterexample activity for C3: an injury-list move. -/
def actMovedToIL : Activity := ⟨[.tuple3 none "MOVED TO IL" "X"]⟩

/-- Witness activity for C3: a single unrecognized action string. -/
def actFooBar : Activity := ⟨[.tuple3 none "FOO BAR" "X"]⟩

/-- Counterexample league for C2: one team rostering one identified player;
the remote free-agent pool is empty. -/
def lgOneRostered : LeagueModel :=
  ⟨[[{ playerId := some 1, name := "Alice" }]], fun _ => some []⟩

/-- Counterexample league for C4: the lone rostered player has no id. -/
def lgNoIdRostered : LeagueModel :=
  ⟨[[{ playerId := none, name := "Alice" }]], fun _ => some []⟩

/-- Witness league for C4/C10: one identified rostered player. -/
def lgBob : LeagueModel :=
  ⟨[[{ playerId := some 5, name := "Bob" }]], fun _ => some []⟩

/-- Witness page oracle for C6: a full first page then a short second page. -/
def pagesShortSecond : Nat → Option (List Nat) :=
  fun o => if o = 0 then some [1, 2] else some [3]

/-- Witness entry list for C7: the same player id seen with scores 60 and 90
(the specification's deduplication example). -/
def entriesSixtyNinety : List MatchEntry :=
  [{ playerId := some 1, name := "a", status := "ROSTERED", score := 60 },
   { playerId := some 1, name := "b", status := "FREE_AGENT", score := 90 }]

/-- Witness entry list for C10: a rostered entry and a free-agent entry for
the same player id with equal scores, rostered first. -/
def entriesTieRosteredFirst : List MatchEntry :=
  [{ playerId := some 3, name := "r", status := "ROSTERED", score := 100 },
   { playerId := some 3, name := "f", status := "FREE_AGENT", score := 100 }]

/-! ## Lemmas about the activity classifier -/

lemma applyTeam_type (d : ActivityDict) (t : Option Team) : (applyTeam d t).type = d.type := by
  unfold applyTeam; split <;> rfl

lemma applyTeam_added (d : ActivityDict) (t : Option Team) :
    (applyTeam d t).addedPlayer = d.addedPlayer := by
  unfold applyTeam; split <;> rfl

lemma applyTeam_dropped (d : ActivityDict) (t : Option Team) :
    (applyTeam d t).droppedPlayer = d.droppedPlayer := by
  unfold applyTeam; split <;> rfl

lemma applyKind_type (d : ActivityDict) (mt : String) :
    (applyKind d mt).type = d.type ∨ (applyKind d mt).type = mt := by
  unfold applyKind; split
  · right; rfl
  · left; rfl

lemma applySideEffects_type (d : ActivityDict) (mt ty pn : String) :
    (applySideEffects d mt ty pn).type = d.type := by
  unfold applySideEffects
  split
  · split
    · split
      · rfl
      · split <;> rfl
    · rfl
  · split
    · split <;> rfl
    · split <;> rfl

lemma mappedType_mem (s m : String) (h : lookupActionType s = some m) :
    m ∈ ESPN_ACTION_TYPE_MAP.map Prod.snd := by
  unfold lookupActionType at h
  cases hf : ESPN_ACTION_TYPE_MAP.find? (fun p => p.1 = s) with
  | none => rw [hf] at h; simp at h
  | some p =>
    rw [hf] at h
    have hm : p.2 = m := by simpa using h
    rw [← hm]
    exact List.mem_map_of_mem Prod.snd (List.mem_of_find?_eq_some hf)

lemma processAction_tuple3 (d : ActivityDict) (t : Option Team) (ty pn : String) :
    processAction d (.tuple3 t ty pn) =
      match lookupActionType ty with
      | none => applyTeam d t
      | some mt => applySideEffects (applyKind (applyTeam d t) mt) mt ty pn := rfl

lemma processAction_type (d : ActivityDict) (a : ActionItem) :
    (processAction d a).type = d.type ∨
      (processAction d a).type ∈ ESPN_ACTION_TYPE_MAP.map Prod.snd := by
  cases a with
  | malformed => left; rfl
  | tuple3 t ty pn =>
    rw [processAction_tuple3]
    cases hl : lookupActionType ty with
    | none => left; exact applyTeam_type d t
    | some mt =>
      have hm := mappedType_mem ty mt hl
      rw [applySideEffects_type]
      rcases applyKind_type (applyTeam d t) mt with h | h
      · left; rw [h, applyTeam_type]
      · right; rw [h]; exact hm

lemma foldl_type_mem (acts : List ActionItem) (d : ActivityDict)
    (h : d.type ∈ classifierKinds) :
    (acts.foldl processAction d).type ∈ classifierKinds := by
  induction acts generalizing d with
  | nil => exact h
  | cons a t ih =>
    simp only [List.foldl_cons]
    apply ih
    rcases processAction_type d a with h' | h'
    · rw [h']; exact h
    · exact List.mem_cons_of_mem _ h'

lemma processAction_unrec (d : ActivityDict) (a : ActionItem)
    (h : unrecognizedAction a = true) : (processAction d a).type = d.type := by
  cases a with
  | malformed => rfl
  | tuple3 t ty pn =>
    have h' : (lookupActionType ty).isNone = true := h
    rw [processAction_tuple3]
    cases hl : lookupActionType ty with
    | none => exact applyTeam_type d t
    | some mt => rw [hl] at h'; simp at h'

lemma foldl_type_unrec (acts : List ActionItem) (d : ActivityDict)
    (h : ∀ a ∈ acts, unrecognizedAction a = true) :
    (acts.foldl processAction d).type = d.type := by
  induction acts generalizing d with
  | nil => rfl
  | cons a t ih =>
    simp only [List.foldl_cons]
    rw [ih _ (fun x hx => h x (List.mem_cons_of_mem a hx)),
        processAction_unrec d a (h a (List.mem_cons_self a t))]

/-! ## Claim theorems: activity classifier -/

/-- C1 counterexample: for the activity whose action tuples are
`(TRADED, "A")`, `(FA ADDED, "B")`, `(DROPPED, "C")`, the classifier sets
both `added_player` and `dropped_player` yet the kind is `TRADE_ACCEPTED`,
not `ROSTER_MOVE` — refuting the claim that such a record always has kind
`ROSTER_MOVE`. -/
theorem c1_both_set_not_roster_move :
    (activityToDict actTradeAddDrop).addedPlayer.isSome = true ∧
    (activityToDict actTradeAddDrop).droppedPlayer.isSome = true ∧
    (activityToDict actTradeAddDrop).type = "TRADE_ACCEPTED" ∧
    ¬(activityToDict actTradeAddDrop).type = "ROSTER_MOVE" := by
  refine ⟨rfl, rfl, rfl, ?_⟩; decide

/-- C1 amended: an ActivityRecord in which both `added_player` and
`dropped_player` are set never has kind `ADD` or `DROP` (the post-pass
reclassifies those to `ROSTER_MOVE`); its kind need not be `ROSTER_MOVE`
when an earlier tuple already fixed another kind. -/
theorem c1_both_set_never_add_drop (a : Activity)
    (h1 : (activityToDict a).addedPlayer.isSome = true)
    (h2 : (activityToDict a).droppedPlayer.isSome = true) :
    (activityToDict a).type ≠ "ADD" ∧ (activityToDict a).type ≠ "DROP" := by
  unfold activityToDict postPass at h1 h2 ⊢
  set d := a.actions.foldl processAction initActivityDict with hd
  by_cases hc :
      d.addedPlayer.isSome = true ∧ d.droppedPlayer.isSome = true ∧
        (d.type = "ADD" ∨ d.type = "DROP")
  · rw [if_pos hc]
    exact ⟨show "ROSTER_MOVE" ≠ "ADD" by decide, show "ROSTER_MOVE" ≠ "DROP" by decide⟩
  · rw [if_neg hc] at h1 h2 ⊢
    have hnor : ¬(d.type = "ADD" ∨ d.type = "DROP") := fun hor => hc ⟨h1, h2, hor⟩
    exact ⟨fun h => hnor (Or.inl h), fun h => hnor (Or.inr h)⟩

/-- C1 witness: the amended theorem applied to the concrete add-plus-drop
activity. -/
theorem c1_both_set_never_add_drop_witness :
    (activityToDict actAddDrop).type ≠ "ADD" ∧ (activityToDict actAddDrop).type ≠ "DROP" :=
  c1_both_set_never_add_drop actAddDrop (by decide) (by decide)

/-- C3 counterexample: the activity whose single action is `MOVED TO IL`
classifies to kind `INJURY_LIST`, which is outside the closed ActivityKind
set named by the specification. -/
theorem c3_injury_list_outside_kind_set :
    (activityToDict actMovedToIL).type = "INJURY_LIST" ∧
    "INJURY_LIST" ∉ activityKindSet := by
  refine ⟨rfl, ?_⟩; decide

/-- C3 amended: every classified record has its kind set, and that kind lies
in the specification's closed ActivityKind set extended with `INJURY_LIST`
(which `ESPN_ACTION_TYPE_MAP` maps the IL moves to); when no action tuple is
recognized the kind is `UNKNOWN_ACTIVITY`. -/
theorem c3_kind_always_set (a : Activity) :
    ((activityToDict a).type ∈ activityKindSet ∨ (activityToDict a).type = "INJURY_LIST") ∧
    ((∀ act ∈ a.actions, unrecognizedAction act = true) →
      (activityToDict a).type = "UNKNOWN_ACTIVITY") := by
  constructor
  · unfold activityToDict postPass
    set d := a.actions.foldl processAction initActivityDict with hd
    have hdm : d.type ∈ classifierKinds := by
      rw [hd]; exact foldl_type_mem a.actions initActivityDict (by decide)
    have hall : ∀ t ∈ classifierKinds, t ∈ activityKindSet ∨ t = "INJURY_LIST" := by decide
    split
    · left; show "ROSTER_MOVE" ∈ activityKindSet; decide
    · exact hall d.type hdm
  · intro h
    unfold activityToDict postPass
    set d := a.actions.foldl processAction initActivityDict with hd
    have ht : d.type = "UNKNOWN_ACTIVITY" := by
      rw [hd]; exact foldl_type_unrec a.actions initActivityDict h
    split
    · rename_i hc
      rw [ht] at hc
      rcases hc with ⟨-, -, hor⟩
      rcases hor with h' | h' <;> simp at h'
    · exact ht

/-- C3 witness: the amended theorem applied to the activity with the single
unrecognized action string `"FOO BAR"`. -/
theorem c3_kind_always_set_witness :
    ((activityToDict actFooBar).type ∈ activityKindSet ∨
      (activityToDict actFooBar).type = "INJURY_LIST") ∧
    (activityToDict actFooBar).type = "UNKNOWN_ACTIVITY" :=
  ⟨(c3_kind_always_set actFooBar).1, (c3_kind_always_set actFooBar).2 (by decide)⟩

/-- C5: a vendor activity whose single action tuple is
`(TeamA, "FA ADDED", name)` classifies to kind ADD with `added_player` the
named player, source FREE_AGENT, and the team taken from the tuple. -/
theorem c5_fa_added_scenario (teamA : Team) (name : String) :
    activityToDict ⟨[.tuple3 (some teamA) "FA ADDED" name]⟩ =
      { type := "ADD", team := some teamA, addedPlayer := some name,
        droppedPlayer := none, playersIn := [], playersOut := [],
        source := some "FREE_AGENT" } := rfl

/-! ## Lemmas about the name matcher and search engine -/

lemma fuzzyMatchName_empty_term (pr tsr : String → String → Nat) (n : String) (th : Nat) :
    fuzzyMatchName pr tsr "" n th = (false, 0) := by
  simp [fuzzyMatchName]

lemma faMatchesAll_empty_term (pr tsr : String → String → Nat)
    (pages : Nat → Option (List SPlayer)) : faMatchesAll pr tsr pages "" = [] := by
  unfold faMatchesAll
  rw [List.filterMap_eq_nil_iff]
  intro p _
  simp [fuzzyMatchName_empty_term]

/-! ## Claim theorems: name matcher and empty search -/

/-- C2 counterexample: with one identified rostered player and an empty
free-agent pool, an empty `search_term` with `include_rostered = true`
returns that player (the roster scan's substring test accepts the empty
string), not the empty list. -/
theorem c2_empty_term_counterexample :
    searchPlayersCore lgOneRostered zeroScore zeroScore "" true true =
      [{ playerId := some 1, name := "Alice", status := "ROSTERED", score := 100 }] ∧
    ([{ playerId := some 1, name := "Alice", status := "ROSTERED", score := 100 }] :
      List MatchEntry) ≠ [] := by
  constructor
  · show (searchDedup (matchingPlayers lgOneRostered zeroScore zeroScore "" true true)).mergeSort
        entryLE = _
    have h : searchDedup (matchingPlayers lgOneRostered zeroScore zeroScore "" true true) =
        [{ playerId := some 1, name := "Alice", status := "ROSTERED", score := 100 }] := rfl
    rw [h, List.mergeSort_singleton]
  · decide

/-- C2 amended: an empty `search_term` yields an empty result when rostered
players are excluded (the free-agent path's Name Matcher never matches an
empty search term), regardless of `include_free_agents`; with
`include_rostered = true` the roster scan matches every rostered player, so
the result need not be empty. -/
theorem c2_empty_term_no_rostered (lg : LeagueModel) (pr tsr : String → String → Nat)
    (includeFreeAgents : Bool) :
    searchPlayersCore lg pr tsr "" false includeFreeAgents = [] := by
  unfold searchPlayersCore matchingPlayers
  simp [faMatchesAll_empty_term, searchDedup, dedupFold]

/-- C8: when substring containment fails and both rapidfuzz strategies score
below the threshold, two multi-token strings sharing their (lower-cased)
first token match with fixed score 85. -/
theorem c8_first_name_heuristic (pr tsr : String → String → Nat) (s n : String) (th : Nat)
    (hsub : strContains (pyLower s) (pyLower n) = false)
    (hpr : pr (pyLower s) (pyLower n) < th)
    (htsr : tsr (pyLower s) (pyLower n) < th)
    (hs : 1 < (pySplit (pyLower s)).length)
    (hn : 1 < (pySplit (pyLower n)).length)
    (hhead : (pySplit (pyLower s)).head? = (pySplit (pyLower n)).head?) :
    fuzzyMatchName pr tsr s n th = (true, 85) := by
  have hsne : ¬s = "" := by
    intro h
    subst h
    have hc : strContains (pyLower "") (pyLower n) = true := by
      show containsSub [] (pyLower n).data = true
      cases (pyLower n).data with
      | nil => rfl
      | cons c t => rfl
    rw [hc] at hsub
    exact absurd hsub (by decide)
  have hnne : ¬n = "" := by
    intro h
    subst h
    have h0 : pySplit (pyLower "") = [] := rfl
    rw [h0] at hn
    exact absurd hn (by decide)
  unfold fuzzyMatchName
  rw [if_neg (by simp [hsne, hnne])]
  simp only [hsub, Bool.false_eq_true, if_false]
  rw [if_neg (by omega), if_neg (by omega), if_pos]
  simp only [Bool.and_eq_true, decide_eq_true_eq]
  exact ⟨⟨by simpa using hs, by simpa using hn⟩, by simpa using hhead⟩

/-- C8 witness: the heuristic applied to "jon smith" vs "jon doe" with
constant-zero scorers at threshold 80. -/
theorem c8_first_name_heuristic_witness :
    fuzzyMatchName zeroScore zeroScore "jon smith" "jon doe" 80 = (true, 85) :=
  c8_first_name_heuristic zeroScore zeroScore "jon smith" "jon doe" 80
    (by decide) (by decide) (by decide) (by decide) (by decide) (by decide)

/-! ## Lemmas about the deduplication dictionary -/

lemma alLookup_append (k : Int) (m₁ m₂ : List (Int × MatchEntry)) :
    alLookup k (m₁ ++ m₂) =
      match alLookup k m₁ with
      | some v => some v
      | none => alLookup k m₂ := by
  induction m₁ with
  | nil => rfl
  | cons x t ih =>
    obtain ⟨k', v'⟩ := x
    by_cases h : k' = k
    · simp [alLookup, h]
    · simp only [List.cons_append, alLookup, if_neg h]
      exact ih

lemma alLookup_alUpdate_self (k : Int) (v w : MatchEntry) (m : List (Int × MatchEntry))
    (h : alLookup k m = some w) : alLookup k (alUpdate k v m) = some v := by
  induction m with
  | nil => simp [alLookup] at h
  | cons x t ih =>
    obtain ⟨k', w'⟩ := x
    by_cases hk : k' = k
    · simp [alLookup, alUpdate, hk]
    · simp only [alLookup, alUpdate, if_neg hk] at h ⊢
      exact ih h
lemma alLookup_alUpdate_ne (k k' : Int) (v : MatchEntry) (m : List (Int × MatchEntry))
    (h : k ≠ k') : alLookup k (alUpdate k' v m) = alLookup k m := by
  induction m with
  | nil => rfl
  | cons x t ih =>
    obtain ⟨k₀, w⟩ := x
    simp only [alUpdate]
    by_cases hk : k₀ = k'
    · rw [if_pos hk]
      have hk2 : ¬k₀ = k := fun he => h (he.symm.trans hk)
      show (if k₀ = k then some v else alLookup k t) = if k₀ = k then some w else alLookup k t
      rw [if_neg hk2, if_neg hk2]
    · rw [if_neg hk]
      show (if k₀ = k then some w else alLookup k (alUpdate k' v t)) = _
      by_cases hk2 : k₀ = k
      · rw [if_pos hk2]
        show _ = if k₀ = k then some w else alLookup k t
        rw [if_pos hk2]
      · rw [if_neg hk2]
        show _ = if k₀ = k then some w else alLookup k t
        rw [if_neg hk2]
        exact ih

lemma dedupStep_none (m : List (Int × MatchEntry)) (p : MatchEntry)
    (h : p.playerId = none) : dedupStep m p = m := by
  unfold dedupStep; rw [h]

lemma dedupStep_some (m : List (Int × MatchEntry)) (p : MatchEntry) (pid : Int)
    (h : p.playerId = some pid) :
    dedupStep m p =
      match alLookup pid m with
      | none => m ++ [(pid, p)]
      | some cur => if p.score > cur.score then alUpdate pid p m else m := by
  unfold dedupStep; rw [h]

lemma dedupStep_lookup_eq (m : List (Int × MatchEntry)) (p : MatchEntry) (pid : Int)
    (h : p.playerId = some pid) :
    alLookup pid (dedupStep m p) = kbStep (alLookup pid m) p := by
  rw [dedupStep_some m p pid h]
  cases hl : alLookup pid m with
  | none =>
    rw [alLookup_append]
    rw [hl]
    show alLookup pid [(pid, p)] = kbStep none p
    simp [alLookup, kbStep]
  | some cur =>
    show alLookup pid (if p.score > cur.score then alUpdate pid p m else m) =
      kbStep (some cur) p
    by_cases hs : p.score > cur.score
    · rw [if_pos hs, alLookup_alUpdate_self pid p cur m hl]
      simp [kbStep, hs]
    · rw [if_neg hs, hl]
      simp [kbStep, hs]

lemma dedupStep_lookup_ne (m : List (Int × MatchEntry)) (p : MatchEntry) (pid : Int)
    (h : ¬p.playerId = some pid) :
    alLookup pid (dedupStep m p) = alLookup pid m := by
  cases hp : p.playerId with
  | none => rw [dedupStep_none m p hp]
  | some pid' =>
    have hne : pid' ≠ pid := fun he => h (hp.trans (congrArg some he))
    rw [dedupStep_some m p pid' hp]
    cases hl : alLookup pid' m with
    | none =>
      rw [alLookup_append]
      cases hm : alLookup pid m with
      | some v => rfl
      | none =>
        show alLookup pid [(pid', p)] = none
        simp [alLookup, hne]
    | some cur =>
      show alLookup pid (if p.score > cur.score then alUpdate pid' p m else m) =
        alLookup pid m
      by_cases hs : p.score > cur.score
      · rw [if_pos hs]
        exact alLookup_alUpdate_ne pid pid' p m (fun he => hne he.symm)
      · rw [if_neg hs]

lemma dedupFold_lookup_aux (entries : List MatchEntry) (m : List (Int × MatchEntry))
    (pid : Int) :
    alLookup pid (entries.foldl dedupStep m) =
      keepBest (alLookup pid m)
        (entries.filter (fun q => decide (q.playerId = some pid))) := by
  induction entries generalizing m with
  | nil => rfl
  | cons p t ih =>
    simp only [List.foldl_cons, List.filter_cons]
    by_cases hp : p.playerId = some pid
    · rw [if_pos (by simpa using hp)]
      rw [ih, dedupStep_lookup_eq m p pid hp]
      rfl
    · rw [if_neg (by simpa using hp)]
      rw [ih, dedupStep_lookup_ne m p pid hp]

lemma dedupFold_lookup (entries : List MatchEntry) (pid : Int) :
    alLookup pid (dedupFold entries) =
      keepBest none (entries.filter (fun q => decide (q.playerId = some pid))) :=
  dedupFold_lookup_aux entries [] pid

lemma keepBest_mem_max (qs : List MatchEntry) : ∀ cur v, keepBest cur qs = some v →
    (cur = some v ∨ v ∈ qs) ∧ (∀ q ∈ qs, q.score ≤ v.score) ∧
      (∀ c, cur = some c → c.score ≤ v.score) := by
  induction qs with
  | nil =>
    intro cur v h
    have h0 : cur = some v := h
    refine ⟨Or.inl h0, by simp, fun c hc => ?_⟩
    rw [h0] at hc
    cases hc
    exact le_refl _
  | cons q t ih =>
    intro cur v h
    have h' : keepBest (kbStep cur q) t = some v := h
    obtain ⟨hmem, hmax, hcur⟩ := ih (kbStep cur q) v h'
    have hq : ∃ c0, kbStep cur q = some c0 ∧ q.score ≤ c0.score ∧
        (∀ c, cur = some c → c.score ≤ c0.score) ∧ (c0 = q ∨ cur = some c0) := by
      cases cur with
      | none => exact ⟨q, rfl, le_refl _, by simp, Or.inl rfl⟩
      | some c' =>
        by_cases hgt : q.score > c'.score
        · refine ⟨q, ?_, le_refl _, ?_, Or.inl rfl⟩
          · show kbStep (some c') q = some q
            simp [kbStep, hgt]
          · intro c hc
            cases hc
            exact le_of_lt hgt
        · refine ⟨c', ?_, by omega, ?_, Or.inr rfl⟩
          · show kbStep (some c') q = some c'
            simp [kbStep, hgt]
          · intro c hc
            cases hc
            exact le_refl _
    obtain ⟨c0, hc0, hqle, hcurle, hc0or⟩ := hq
    refine ⟨?_, ?_, ?_⟩
    · rcases hmem with hm | hm
      · rw [hc0] at hm
        cases hm
        rcases hc0or with h1 | h1
        · exact Or.inr (h1 ▸ List.mem_cons_self q t)
        · exact Or.inl h1
      · exact Or.inr (List.mem_cons_of_mem q hm)
    · intro q' hq'
      rcases List.mem_cons.mp hq' with h1 | h1
      · subst h1
        exact le_trans hqle (hcur c0 hc0)
      · exact hmax q' h1
    · intro c hc
      exact le_trans (hcurle c hc) (hcur c0 hc0)

lemma keepBest_keep_cur (t : List MatchEntry) : ∀ c, (∀ q ∈ t, q.score ≤ c.score) →
    keepBest (some c) t = some c := by
  induction t with
  | nil => intro c _; rfl
  | cons q t ih =>
    intro c h
    have hq : ¬q.score > c.score := by
      have := h q (List.mem_cons_self q t)
      omega
    show keepBest (kbStep (some c) q) t = some c
    have hstep : kbStep (some c) q = some c := by simp [kbStep, hq]
    rw [hstep]
    exact ih c (fun q' hq' => h q' (List.mem_cons_of_mem q hq'))

lemma keepBest_first_max (p : MatchEntry) (rest : List MatchEntry)
    (h : ∀ q ∈ rest, q.score ≤ p.score) : keepBest none (p :: rest) = some p := by
  show keepBest (kbStep none p) rest = some p
  exact keepBest_keep_cur rest p h

/-- Invariant: every stored pair maps a player id key to an entry carrying
exactly that id. -/
def PairInv (m : List (Int × MatchEntry)) : Prop := ∀ x ∈ m, x.2.playerId = some x.1

/-- Invariant: the dictionary's keys are pairwise distinct. -/
def KeysNodup (m : List (Int × MatchEntry)) : Prop := (m.map Prod.fst).Nodup

lemma alLookup_none_not_key (k : Int) (m : List (Int × MatchEntry))
    (h : alLookup k m = none) : k ∉ m.map Prod.fst := by
  induction m with
  | nil => simp
  | cons x t ih =>
    obtain ⟨k', v'⟩ := x
    by_cases hk : k' = k
    · simp [alLookup, hk] at h
    · simp only [alLookup, if_neg hk] at h
      simp only [List.map_cons, List.mem_cons]
      rintro (h1 | h1)
      · exact hk h1.symm
      · exact ih h h1

lemma alUpdate_map_fst (k : Int) (v : MatchEntry) (m : List (Int × MatchEntry)) :
    (alUpdate k v m).map Prod.fst = m.map Prod.fst := by
  induction m with
  | nil => rfl
  | cons x t ih =>
    obtain ⟨k', w⟩ := x
    by_cases hk : k' = k
    · simp [alUpdate, hk]
    · simp [alUpdate, hk, ih]

lemma mem_alUpdate (k : Int) (v : MatchEntry) (m : List (Int × MatchEntry))
    (x : Int × MatchEntry) (h : x ∈ alUpdate k v m) : x ∈ m ∨ x = (k, v) := by
  induction m with
  | nil => simp [alUpdate] at h
  | cons y t ih =>
    obtain ⟨k', w⟩ := y
    by_cases hk : k' = k
    · subst hk
      rw [alUpdate, if_pos rfl] at h
      rcases List.mem_cons.mp h with h1 | h1
      · exact Or.inr h1
      · exact Or.inl (List.mem_cons_of_mem _ h1)
    · rw [alUpdate, if_neg hk] at h
      rcases List.mem_cons.mp h with h1 | h1
      · exact Or.inl (h1 ▸ List.mem_cons_self _ t)
      · rcases ih h1 with h2 | h2
        · exact Or.inl (List.mem_cons_of_mem _ h2)
        · exact Or.inr h2

lemma dedupStep_inv (m : List (Int × MatchEntry)) (p : MatchEntry)
    (h1 : PairInv m) (h2 : KeysNodup m) :
    PairInv (dedupStep m p) ∧ KeysNodup (dedupStep m p) := by
  cases hp : p.playerId with
  | none =>
    rw [dedupStep_none m p hp]
    exact ⟨h1, h2⟩
  | some pid =>
    rw [dedupStep_some m p pid hp]
    cases hl : alLookup pid m with
    | none =>
      constructor
      · intro x hx
        rcases List.mem_append.mp hx with hx | hx
        · exact h1 x hx
        · rw [List.mem_singleton] at hx
          subst hx
          exact hp
      · show ((m ++ [(pid, p)]).map Prod.fst).Nodup
        rw [List.map_append, List.nodup_append]
        refine ⟨h2, by simp, ?_⟩
        intro a ha hb
        simp only [List.map_cons, List.map_nil, List.mem_singleton] at hb
        exact alLookup_none_not_key pid m hl (hb ▸ ha)
    | some cur =>
      show PairInv (if p.score > cur.score then alUpdate pid p m else m) ∧
        KeysNodup (if p.score > cur.score then alUpdate pid p m else m)
      by_cases hs : p.score > cur.score
      · rw [if_pos hs]
        constructor
        · intro x hx
          rcases mem_alUpdate pid p m x hx with h | h
          · exact h1 x h
          · subst h
            exact hp
        · show ((alUpdate pid p m).map Prod.fst).Nodup
          rw [alUpdate_map_fst]
          exact h2
      · rw [if_neg hs]
        exact ⟨h1, h2⟩

lemma dedupFold_inv_aux (entries : List MatchEntry) :
    ∀ m, PairInv m → KeysNodup m →
      PairInv (entries.foldl dedupStep m) ∧ KeysNodup (entries.foldl dedupStep m) := by
  induction entries with
  | nil => intro m h1 h2; exact ⟨h1, h2⟩
  | cons p t ih =>
    intro m h1 h2
    obtain ⟨h1', h2'⟩ := dedupStep_inv m p h1 h2
    exact ih (dedupStep m p) h1' h2'

lemma dedupFold_inv (entries : List MatchEntry) :
    PairInv (dedupFold entries) ∧ KeysNodup (dedupFold entries) :=
  dedupFold_inv_aux entries [] (fun x hx => absurd hx (List.not_mem_nil x))
    (by simp [KeysNodup])

lemma alLookup_of_mem (k : Int) (v : MatchEntry) (m : List (Int × MatchEntry))
    (h : (k, v) ∈ m) (hnd : KeysNodup m) : alLookup k m = some v := by
  induction m with
  | nil => simp at h
  | cons x t ih =>
    obtain ⟨k', w⟩ := x
    have hnd' : KeysNodup t ∧ k' ∉ t.map Prod.fst := by
      simp only [KeysNodup, List.map_cons, List.nodup_cons] at hnd
      exact ⟨hnd.2, hnd.1⟩
    rcases List.mem_cons.mp h with h1 | h1
    · cases h1
      simp [alLookup]
    · have hk' : ¬k' = k := by
        intro he
        subst he
        exact hnd'.2 (List.mem_map.mpr ⟨(k', v), h1, rfl⟩)
      show (if k' = k then some w else alLookup k t) = some v
      rw [if_neg hk']
      exact ih h1 hnd'.1

lemma mem_snd_lookup (m : List (Int × MatchEntry)) (v : MatchEntry) (pid : Int)
    (hinv : PairInv m) (hnd : KeysNodup m)
    (h : v ∈ m.map Prod.snd) (hv : v.playerId = some pid) :
    alLookup pid m = some v := by
  obtain ⟨⟨k, w⟩, hx, hxv⟩ := List.mem_map.mp h
  simp only at hxv
  rw [hxv] at hx
  have hk : v.playerId = some k := hinv (k, v) hx
  rw [hv] at hk
  cases hk
  exact alLookup_of_mem pid v m hx hnd

lemma filter_snd_le_one (m : List (Int × MatchEntry)) (pid : Int)
    (hinv : PairInv m) (hnd : KeysNodup m) :
    ((m.map Prod.snd).filter (fun v => decide (v.playerId = some pid))).length ≤ 1 := by
  induction m with
  | nil => simp
  | cons x t ih =>
    obtain ⟨k, v⟩ := x
    have hpair : v.playerId = some k := hinv (k, v) (List.mem_cons_self _ t)
    have hinv' : PairInv t := fun y hy => hinv y (List.mem_cons_of_mem _ hy)
    have hnd2 : KeysNodup t ∧ k ∉ t.map Prod.fst := by
      simp only [KeysNodup, List.map_cons, List.nodup_cons] at hnd
      exact ⟨hnd.2, hnd.1⟩
    simp only [List.map_cons, List.filter_cons]
    by_cases hm : v.playerId = some pid
    · rw [if_pos (by simpa using hm)]
      have hkpid : k = pid := by
        rw [hpair] at hm
        exact Option.some.inj hm
      subst hkpid
      have hrest : (t.map Prod.snd).filter (fun w => decide (w.playerId = some k)) = [] := by
        rw [List.filter_eq_nil_iff]
        intro w hw
        obtain ⟨⟨k', w'⟩, hy, hyw⟩ := List.mem_map.mp hw
        simp only at hyw
        rw [hyw] at hy
        have hp' : w.playerId = some k' := hinv' (k', w) hy
        simp only [hp', decide_eq_true_eq, Option.some.injEq]
        intro he
        subst he
        exact hnd2.2 (List.mem_map.mpr ⟨(k', w), hy, rfl⟩)
      rw [hrest]
      simp
    · rw [if_neg (by simpa using hm)]
      exact ih hinv' hnd2.1
lemma mem_ite_nil {l : List MatchEntry} {c : Prop} [Decidable c] {e : MatchEntry}
    (h : e ∈ (if c then l else [])) : e ∈ l := by
  split at h
  · exact h
  · exact absurd h (List.not_mem_nil e)

lemma rosteredMatches_status (teams : List (List SPlayer)) (term : String)
    (e : MatchEntry) (h : e ∈ rosteredMatches teams term) : e.status = "ROSTERED" := by
  unfold rosteredMatches at h
  rw [List.mem_flatten] at h
  obtain ⟨l, hl, hel⟩ := h
  rw [List.mem_map] at hl
  obtain ⟨roster, _, hrl⟩ := hl
  subst hrl
  rw [List.mem_filterMap] at hel
  obtain ⟨p, _, hpe⟩ := hel
  split at hpe
  · cases hpe
    rfl
  · cases hpe

lemma faMatchesAll_status (pr tsr : String → String → Nat)
    (pages : Nat → Option (List SPlayer)) (term : String) (e : MatchEntry)
    (h : e ∈ faMatchesAll pr tsr pages term) : e.status = "FREE_AGENT" := by
  unfold faMatchesAll at h
  rw [List.mem_filterMap] at h
  obtain ⟨p, _, hpe⟩ := h
  split at hpe
  · cases hpe
    rfl
  · cases hpe

lemma handleError_shape (e ctx : String) : ∃ m, handleError e ctx = [("error", m)] := by
  unfold handleError
  split
  · exact ⟨_, rfl⟩
  · exact ⟨_, rfl⟩

/-! ## Claim theorems: deduplication, identity, and the tool boundary -/

/-- C4 counterexample: a matched player with no player id appears in
`matching_players` but is dropped from the returned result list, refuting
"kept as-is". -/
theorem c4_no_id_dropped_counterexample :
    matchingPlayers lgNoIdRostered zeroScore zeroScore "Alice" true false =
      [{ playerId := none, name := "Alice", status := "ROSTERED", score := 100 }] ∧
    searchPlayersCore lgNoIdRostered zeroScore zeroScore "Alice" true false = [] := by
  constructor
  · rfl
  · show (searchDedup (matchingPlayers lgNoIdRostered zeroScore zeroScore "Alice" true
        false)).mergeSort entryLE = []
    have h : searchDedup (matchingPlayers lgNoIdRostered zeroScore zeroScore "Alice" true
        false) = [] := rfl
    rw [h, List.mergeSort_nil]

/-- C4 amended: a matched player with no resolvable identity is excluded from
deduplication and thereby from the returned result list (the result is built
solely from the dedup dictionary's values, all of which carry a player id),
rather than being kept as-is. -/
theorem c4_results_have_ids (lg : LeagueModel) (pr tsr : String → String → Nat)
    (term : String) (ir ifa : Bool) (e : MatchEntry)
    (he : e ∈ searchPlayersCore lg pr tsr term ir ifa) : e.playerId.isSome = true := by
  unfold searchPlayersCore at he
  rw [List.mem_mergeSort] at he
  unfold searchDedup at he
  obtain ⟨⟨k, w⟩, hx, hxv⟩ := List.mem_map.mp he
  simp only at hxv
  rw [hxv] at hx
  have hp : e.playerId = some k := (dedupFold_inv _).1 (k, e) hx
  rw [hp]
  rfl

/-- C4 witness: the amended theorem applied to a concrete search whose single
result is the identified rostered player Bob. -/
theorem c4_results_have_ids_witness :
    ({ playerId := some 5, name := "Bob", status := "ROSTERED", score := 100 } :
      MatchEntry).playerId.isSome = true :=
  c4_results_have_ids lgBob zeroScore zeroScore "Bob" true false _
    (by
      show _ ∈ (searchDedup (matchingPlayers lgBob zeroScore zeroScore "Bob" true
          false)).mergeSort entryLE
      rw [List.mem_mergeSort]
      decide)

/-- C7: after the deduplication loop, at most one entry per player id
survives, and each surviving entry originates from the collected matches and
carries the highest match score observed for its id. -/
theorem c7_dedup_unique_highest (entries : List MatchEntry) (pid : Int) :
    ((searchDedup entries).filter (fun e => decide (e.playerId = some pid))).length ≤ 1 ∧
    ∀ v ∈ searchDedup entries, v.playerId = some pid →
      v ∈ entries ∧ ∀ q ∈ entries, q.playerId = some pid → q.score ≤ v.score := by
  obtain ⟨hinv, hnd⟩ := dedupFold_inv entries
  constructor
  · exact filter_snd_le_one (dedupFold entries) pid hinv hnd
  · intro v hv hvpid
    have hl : alLookup pid (dedupFold entries) = some v :=
      mem_snd_lookup (dedupFold entries) v pid hinv hnd hv hvpid
    rw [dedupFold_lookup] at hl
    obtain ⟨hmem, hmax, -⟩ := keepBest_mem_max _ none v hl
    constructor
    · rcases hmem with hm | hm
      · cases hm
      · exact List.mem_of_mem_filter hm
    · intro q hq hqpid
      exact hmax q (List.mem_filter.mpr ⟨hq, by simpa using hqpid⟩)

/-- C7 witness: the theorem applied to the specification's example — the same
player id with scores 60 and 90 leaves the score-90 entry. -/
theorem c7_dedup_unique_highest_witness :
    ((searchDedup entriesSixtyNinety).filter
        (fun e => decide (e.playerId = some 1))).length ≤ 1 ∧
    ({ playerId := some 1, name := "b", status := "FREE_AGENT", score := 90 } :
        MatchEntry) ∈ entriesSixtyNinety ∧
    ({ playerId := some 1, name := "a", status := "ROSTERED", score := 60 } :
        MatchEntry).score ≤
      ({ playerId := some 1, name := "b", status := "FREE_AGENT", score := 90 } :
        MatchEntry).score := by
  have h := c7_dedup_unique_highest entriesSixtyNinety 1
  have h2 := h.2 { playerId := some 1, name := "b", status := "FREE_AGENT", score := 90 }
    (by decide) (by decide)
  exact ⟨h.1, h2.1, h2.2 _ (by decide) (by decide)⟩

/-- C9: each modelled tool-call entry point (`search_players`,
`get_recent_activity`) returns, for every behavior of the external
collaborators including a raised exception, either the expected payload list
or a single-element error payload keyed `"error"`; the boundary is total, so
no exception escapes. -/
theorem c9_tool_boundary (leagueRes : Except String LeagueModel)
    (pr tsr : String → String → Nat) (term : String) (ir ifa : Bool)
    (actRes : Except String (List Activity)) (limit offset : Nat)
    (activityType : Option String) :
    ((∃ xs, searchPlayersTool leagueRes pr tsr term ir ifa =
        List.map ToolItem.payload xs) ∨
      (∃ m, searchPlayersTool leagueRes pr tsr term ir ifa =
        [ToolItem.errDict [("error", m)]])) ∧
    ((∃ xs, getRecentActivityTool actRes limit offset activityType =
        List.map ToolItem.payload xs) ∨
      (∃ m, getRecentActivityTool actRes limit offset activityType =
        [ToolItem.errDict [("error", m)]])) := by
  constructor
  · cases leagueRes with
    | ok lg => exact Or.inl ⟨_, rfl⟩
    | error e =>
      obtain ⟨msg, hm⟩ := handleError_shape e "search_players"
      refine Or.inr ⟨msg, ?_⟩
      show [ToolItem.errDict (handleError e "search_players")] = _
      rw [hm]
  · cases actRes with
    | ok acts => exact Or.inl ⟨_, rfl⟩
    | error e =>
      obtain ⟨msg, hm⟩ := handleError_shape e "get_recent_activity"
      refine Or.inr ⟨msg, ?_⟩
      show [ToolItem.errDict (handleError e "get_recent_activity")] = _
      rw [hm]

/-- C10: in the deduplication loop the first-collected entry for an id is
retained whenever no later entry for that id has a strictly greater score
(the replacement test is strictly greater-than, so ties keep the incumbent);
and in `matching_players` every ROSTERED entry precedes every FREE_AGENT
entry, so at equal scores a rostered result wins over a free-agent one. -/
theorem c10_ties_keep_first_rostered :
    (∀ (entries : List MatchEntry) (pid : Int) (p : MatchEntry)
        (rest : List MatchEntry),
        entries.filter (fun q => decide (q.playerId = some pid)) = p :: rest →
        (∀ q ∈ rest, q.score ≤ p.score) →
        alLookup pid (dedupFold entries) = some p) ∧
    (∀ (lg : LeagueModel) (pr tsr : String → String → Nat) (term : String)
        (ir ifa : Bool),
        (matchingPlayers lg pr tsr term ir ifa).Pairwise
          (fun a b => ¬(a.status = "FREE_AGENT" ∧ b.status = "ROSTERED"))) := by
  constructor
  · intro entries pid p rest hf hle
    rw [dedupFold_lookup, hf]
    exact keepBest_first_max p rest hle
  · intro lg pr tsr term ir ifa
    show ((if ir = true then rosteredMatches lg.teams term else []) ++
        (if ifa = true ∧ (if ir = true then rosteredMatches lg.teams term else []).length < 50
         then (faMatchesAll pr tsr lg.faPages term).take
                (50 - (if ir = true then rosteredMatches lg.teams term else []).length)
         else [])).Pairwise _
    rw [List.pairwise_append]
    refine ⟨?_, ?_, ?_⟩
    · apply List.pairwise_of_forall_mem_list
      intro a ha b _ hab
      have := rosteredMatches_status lg.teams term a (mem_ite_nil ha)
      rw [this] at hab
      exact absurd hab.1 (by decide)
    · apply List.pairwise_of_forall_mem_list
      intro a _ b hb hab
      have := faMatchesAll_status pr tsr lg.faPages term b
        (List.take_subset _ _ (mem_ite_nil hb))
      rw [this] at hab
      exact absurd hab.2 (by decide)
    · intro a ha b _ hab
      have := rosteredMatches_status lg.teams term a (mem_ite_nil ha)
      rw [this] at hab
      exact absurd hab.1 (by decide)

/-- C10 witness: the tie between a rostered and a free-agent entry for player
id 3 at equal score 100 keeps the rostered entry; and the concrete
`matching_players` list for the league rostering Bob is ordered
ROSTERED-before-FREE_AGENT. -/
theorem c10_ties_keep_first_rostered_witness :
    alLookup 3 (dedupFold entriesTieRosteredFirst) =
      some { playerId := some 3, name := "r", status := "ROSTERED", score := 100 } ∧
    (matchingPlayers lgBob zeroScore zeroScore "bob" true true).Pairwise
      (fun a b => ¬(a.status = "FREE_AGENT" ∧ b.status = "ROSTERED")) :=
  ⟨c10_ties_keep_first_rostered.1 entriesTieRosteredFirst 3
      { playerId := some 3, name := "r", status := "ROSTERED", score := 100 }
      [{ playerId := some 3, name := "f", status := "FREE_AGENT", score := 100 }]
      (by decide) (by decide),
   c10_ties_keep_first_rostered.2 lgBob zeroScore zeroScore "bob" true true⟩

/-! ## Lemmas about the paginated fetcher -/

lemma faLoop_zero {α : Type} (pages : Nat → Option (List α)) (bs mp o t : Nat) :
    faLoop pages bs mp 0 o t = [] := rfl

lemma faLoop_not_lt {α : Type} (pages : Nat → Option (List α)) (bs mp fuel o t : Nat)
    (h : ¬t < mp) : faLoop pages bs mp (fuel + 1) o t = [] := by
  show (if t < mp then _ else []) = []
  rw [if_neg h]

lemma faLoop_none {α : Type} (pages : Nat → Option (List α)) (bs mp fuel o t : Nat)
    (hlt : t < mp) (hp : pages o = none) : faLoop pages bs mp (fuel + 1) o t = [] := by
  show (if t < mp then _ else []) = []
  rw [if_pos hlt, hp]

lemma faLoop_some {α : Type} (pages : Nat → Option (List α)) (bs mp fuel o t : Nat)
    (b : List α) (hlt : t < mp) (hp : pages o = some b) :
    faLoop pages bs mp (fuel + 1) o t =
      (if b.isEmpty then []
       else if (b.take (mp - t)).length < b.length then b.take (mp - t)
       else b.take (mp - t) ++
         (if b.length < bs then []
          else faLoop pages bs mp fuel (o + bs) (t + (b.take (mp - t)).length))) := by
  show (if t < mp then _ else []) = _
  rw [if_pos hlt, hp]

lemma faLoopRequests_zero {α : Type} (pages : Nat → Option (List α)) (bs mp o t : Nat) :
    faLoopRequests pages bs mp 0 o t = [] := rfl

lemma faLoopRequests_not_lt {α : Type} (pages : Nat → Option (List α))
    (bs mp fuel o t : Nat) (h : ¬t < mp) :
    faLoopRequests pages bs mp (fuel + 1) o t = [] := by
  show (if t < mp then _ else []) = []
  rw [if_neg h]

lemma faLoopRequests_none {α : Type} (pages : Nat → Option (List α))
    (bs mp fuel o t : Nat) (hlt : t < mp) (hp : pages o = none) :
    faLoopRequests pages bs mp (fuel + 1) o t = [o] := by
  show (if t < mp then o :: _ else []) = [o]
  rw [if_pos hlt, hp]

lemma faLoopRequests_some {α : Type} (pages : Nat → Option (List α))
    (bs mp fuel o t : Nat) (b : List α) (hlt : t < mp) (hp : pages o = some b) :
    faLoopRequests pages bs mp (fuel + 1) o t =
      o :: (if b.isEmpty then []
            else if (b.take (mp - t)).length < b.length then []
            else if b.length < bs then []
            else faLoopRequests pages bs mp fuel (o + bs)
                   (t + (b.take (mp - t)).length)) := by
  show (if t < mp then o :: _ else []) = _
  rw [if_pos hlt, hp]

lemma faLoop_length {α : Type} (pages : Nat → Option (List α)) (bs mp : Nat) :
    ∀ fuel o t, (faLoop pages bs mp fuel o t).length ≤ mp - t := by
  intro fuel
  induction fuel with
  | zero =>
    intro o t
    rw [faLoop_zero]
    simp
  | succ fuel ih =>
    intro o t
    by_cases hlt : t < mp
    · cases hp : pages o with
      | none =>
        rw [faLoop_none pages bs mp fuel o t hlt hp]
        simp
      | some b =>
        rw [faLoop_some pages bs mp fuel o t b hlt hp]
        have htake : (b.take (mp - t)).length = min (mp - t) b.length :=
          List.length_take _ _
        by_cases hb : b.isEmpty
        · rw [if_pos hb]; simp
        · rw [if_neg hb]
          by_cases hy : (b.take (mp - t)).length < b.length
          · rw [if_pos hy]
            omega
          · rw [if_neg hy, List.length_append]
            by_cases hs : b.length < bs
            · rw [if_pos hs]
              simp only [List.length_nil]
              omega
            · rw [if_neg hs]
              have hrec := ih (o + bs) (t + (b.take (mp - t)).length)
              omega
    · rw [faLoop_not_lt pages bs mp fuel o t hlt]
      simp

lemma mem_dropLast_cons {x a : Nat} {l : List Nat} (h : x ∈ (a :: l).dropLast) :
    l ≠ [] ∧ (x = a ∨ x ∈ l.dropLast) := by
  cases l with
  | nil => simp at h
  | cons b t =>
    refine ⟨by simp, ?_⟩
    have he : (a :: b :: t).dropLast = a :: (b :: t).dropLast := rfl
    rw [he] at h
    exact List.mem_cons.mp h

lemma faLoopRequests_dropLast {α : Type} (pages : Nat → Option (List α)) (bs mp : Nat) :
    ∀ fuel off t o, o ∈ (faLoopRequests pages bs mp fuel off t).dropLast →
      ∃ b, pages o = some b ∧ b ≠ [] ∧ bs ≤ b.length := by
  intro fuel
  induction fuel with
  | zero =>
    intro off t o h
    rw [faLoopRequests_zero] at h
    simp at h
  | succ fuel ih =>
    intro off t o h
    by_cases hlt : t < mp
    · cases hp : pages off with
      | none =>
        rw [faLoopRequests_none pages bs mp fuel off t hlt hp] at h
        simp at h
      | some b =>
        rw [faLoopRequests_some pages bs mp fuel off t b hlt hp] at h
        by_cases hb : b.isEmpty
        · rw [if_pos hb] at h; simp at h
        · rw [if_neg hb] at h
          by_cases hy : (b.take (mp - t)).length < b.length
          · rw [if_pos hy] at h; simp at h
          · rw [if_neg hy] at h
            by_cases hs : b.length < bs
            · rw [if_pos hs] at h; simp at h
            · rw [if_neg hs] at h
              obtain ⟨-, h2⟩ := mem_dropLast_cons h
              rcases h2 with h2 | h2
              · subst h2
                refine ⟨b, hp, ?_, ?_⟩
                · intro he
                  rw [he] at hb
                  exact hb rfl
                · omega
              · exact ih (off + bs) (t + (b.take (mp - t)).length) o h2
    · rw [faLoopRequests_not_lt pages bs mp fuel off t hlt] at h
      simp at h

lemma faLoop_provenance {α : Type} (pages : Nat → Option (List α)) (bs mp : Nat) :
    ∀ fuel off t p, p ∈ faLoop pages bs mp fuel off t →
      ∃ o b, pages o = some b ∧ p ∈ b := by
  intro fuel
  induction fuel with
  | zero =>
    intro off t p h
    rw [faLoop_zero] at h
    simp at h
  | succ fuel ih =>
    intro off t p h
    by_cases hlt : t < mp
    · cases hp : pages off with
      | none =>
        rw [faLoop_none pages bs mp fuel off t hlt hp] at h
        simp at h
      | some b =>
        rw [faLoop_some pages bs mp fuel off t b hlt hp] at h
        by_cases hb : b.isEmpty
        · rw [if_pos hb] at h; simp at h
        · rw [if_neg hb] at h
          by_cases hy : (b.take (mp - t)).length < b.length
          · rw [if_pos hy] at h
            exact ⟨off, b, hp, List.take_subset _ _ h⟩
          · rw [if_neg hy] at h
            rcases List.mem_append.mp h with h1 | h1
            · exact ⟨off, b, hp, List.take_subset _ _ h1⟩
            · by_cases hs : b.length < bs
              · rw [if_pos hs] at h1; simp at h1
              · rw [if_neg hs] at h1
                exact ih (off + bs) (t + (b.take (mp - t)).length) p h1
    · rw [faLoop_not_lt pages bs mp fuel off t hlt] at h
      simp at h

/-! ## Claim theorem: the paginated fetcher -/

/-- C6: the paginated free-agent fetcher never yields more than
`max_players` items; every page request other than the final one received a
full, non-empty page (so no request is ever issued after a failed, empty, or
short page); and every yielded item comes from a successfully fetched page —
a failure silently ends the (always finite) sequence instead of raising. -/
theorem c6_pagination_bounds {α : Type} (pages : Nat → Option (List α)) (bs mp : Nat) :
    (getPaginatedFreeAgents pages bs mp).length ≤ mp ∧
    (∀ o ∈ (getPaginatedRequests pages bs mp).dropLast,
        ∃ b, pages o = some b ∧ b ≠ [] ∧ bs ≤ b.length) ∧
    (∀ p ∈ getPaginatedFreeAgents pages bs mp, ∃ o b, pages o = some b ∧ p ∈ b) := by
  refine ⟨?_, ?_, ?_⟩
  · have h := faLoop_length pages bs mp (mp + 1) 0 0
    simpa using h
  · intro o ho
    exact faLoopRequests_dropLast pages bs mp (mp + 1) 0 0 o ho
  · intro p hp
    exact faLoop_provenance pages bs mp (mp + 1) 0 0 p hp

/-- C6 witness: the theorem applied to a concrete oracle serving a full first
page `[1, 2]` and a short second page `[3]` with batch size 2 and cap 10. -/
theorem c6_pagination_bounds_witness :
    (getPaginatedFreeAgents pagesShortSecond 2 10).length ≤ 10 ∧
    (∃ b, pagesShortSecond 0 = some b ∧ b ≠ [] ∧ 2 ≤ b.length) ∧
    (∃ o b, pagesShortSecond o = some b ∧ 3 ∈ b) :=
  ⟨(c6_pagination_bounds pagesShortSecond 2 10).1,
   (c6_pagination_bounds pagesShortSecond 2 10).2.1 0 (by decide),
   (c6_pagination_bounds pagesShortSecond 2 10).2.2 3 (by decide)⟩

end BaseballMcp
